import Mathlib

/-!
Shallow embedding of the invoice-extraction pipeline
(`parser.py` field extractor and `tasks.py` processing state machine),
together with theorems checking the specification's claims against it.

Strings are modelled as `List Char`; the Python regular expressions used
by the extractor are embedded as a small abstract-syntax type `RE`
covering exactly the constructs those patterns use (case-insensitive
literals, single-character classes, greedy class repetition, optional
parts, one capturing group, word boundaries), with a backtracking
matcher reproducing Python `re.search` leftmost/greedy semantics.
-/

namespace FinDocs

/-- Python whitespace for `\s`, `str.strip()` and the normalizations:
space, tab, newline, carriage return, vertical tab, form feed and the
no-break space. -/
def pyWS (c : Char) : Bool :=
  c = ' ' || c = '\t' || c = '\n' || c = '\r' ||
  c = Char.ofNat 0x0b || c = Char.ofNat 0x0c || c = Char.ofNat 0xa0

/-- Word character for `\w` and `\b` (ASCII model of Python's set). -/
def isWordChar (c : Char) : Bool := c.isAlphanum || c = '_'

/-- `str.strip()`: drop whitespace from both ends. -/
def pyStrip (l : List Char) : List Char :=
  ((l.dropWhile pyWS).reverse.dropWhile pyWS).reverse

/-- Regular-expression subset used by `parser.py`'s patterns. -/
inductive RE where
  | lit (s : List Char)                 -- literal, case-insensitive
  | cls (f : Char → Bool)               -- single-character class
  | star (f : Char → Bool)              -- greedy `[..]*`
  | plus (f : Char → Bool)              -- greedy `[..]+`
  | rep (lo hi : Nat) (f : Char → Bool) -- greedy `[..]{lo,hi}`
  | opt (a : RE)                        -- greedy `(..)?`
  | seq (a b : RE)
  | group (a : RE)                      -- the single capturing group

/-- Fold a pattern list into nested sequencing. -/
def reSeq : List RE → RE
  | [] => .lit []
  | x :: xs => xs.foldl .seq x

/-- Captured text of the (single) group, when the group participated. -/
abbrev Caps := Option (List Char)

/-- A match result handed to continuations: the input remaining after
the match, and the group capture. -/
abbrev MRes := List Char × Caps

/-- Consume exactly `n` characters satisfying `f`, tracking the previous
character (needed for word boundaries). -/
def consumeExact (f : Char → Bool) :
    Nat → Option Char → List Char → Option (Option Char × List Char)
  | 0, p, l => some (p, l)
  | n + 1, _, c :: rest => if f c then consumeExact f n (some c) rest else none
  | _ + 1, _, [] => none

/-- Greedy bounded repetition: try consuming `i` characters of class `f`
then the continuation; on failure back off one character at a time down
to `lo`. -/
def greedyTry (f : Char → Bool) (lo : Nat)
    (k : Option Char → List Char → Option MRes) :
    Nat → Option Char → List Char → Option MRes
  | 0, p, l => if lo = 0 then k p l else none
  | i + 1, p, l =>
    let attempt :=
      match consumeExact f (i + 1) p l with
      | some (p', l') => k p' l'
      | none => none
    match attempt with
    | some r => some r
    | none => if i + 1 ≤ lo then none else greedyTry f lo k i p l

/-- Case-insensitive literal consumption (Python `re.IGNORECASE`). -/
def matchLit : List Char → Option Char → List Char → Option (Option Char × List Char)
  | [], p, l => some (p, l)
  | c :: cs, _, x :: xs =>
      if x.toLower = c.toLower then matchLit cs (some x) xs else none
  | _ :: _, _, [] => none

/-- `\b`: a word boundary sits between the previous character and the
head of the remaining input. -/
def atWordBoundary (p : Option Char) (l : List Char) : Bool :=
  let left := match p with | some c => isWordChar c | none => false
  let right := match l with | c :: _ => isWordChar c | [] => false
  left != right

/-- Length of the maximal prefix satisfying `f`. -/
def prefixRun (f : Char → Bool) : List Char → Nat
  | [] => 0
  | c :: rest => if f c then prefixRun f rest + 1 else 0

/-- Backtracking matcher in continuation-passing style, reproducing
Python's ordered-alternative, greedy-with-backtracking semantics for
this pattern subset.  `p` is the character just before the current
position (for `\b`). -/
def matchRE : RE → Option Char → List Char →
    (Option Char → List Char → Caps → Option MRes) → Caps → Option MRes
  | .lit s, p, l, k, caps =>
      match matchLit s p l with
      | some (p', l') => k p' l' caps
      | none => none
  | .cls f, _, l, k, caps =>
      match l with
      | c :: rest => if f c then k (some c) rest caps else none
      | [] => none
  | .star f, p, l, k, caps =>
      greedyTry f 0 (fun p' l' => k p' l' caps) (prefixRun f l) p l
  | .plus f, p, l, k, caps =>
      let n := prefixRun f l
      if n = 0 then none else greedyTry f 1 (fun p' l' => k p' l' caps) n p l
  | .rep lo hi f, p, l, k, caps =>
      let n := min (prefixRun f l) hi
      if n < lo then none else greedyTry f lo (fun p' l' => k p' l' caps) n p l
  | .opt a, p, l, k, caps =>
      match matchRE a p l k caps with
      | some r => some r
      | none => k p l caps
  | .seq a b, p, l, k, caps =>
      matchRE a p l (fun p' l' caps' => matchRE b p' l' k caps') caps
  | .group a, p, l, k, caps =>
      matchRE a p l
        (fun p' l' _ => k p' l' (some (l.take (l.length - l'.length)))) caps

/-- Attempt a match anchored at the current position; returns the whole
match (group 0) and the group capture. -/
def tryAt (anchor : Bool) (re : RE) (p : Option Char) (l : List Char) :
    Option (List Char × Caps) :=
  if anchor && !atWordBoundary p l then none
  else
    match matchRE re p l (fun _ l' caps => some (l', caps)) none with
    | some (rem, caps) => some (l.take (l.length - rem.length), caps)
    | none => none

/-- `re.search`: try every position left to right, first success wins.
`anchor` records whether the pattern begins with `\b`. -/
def searchAux (anchor : Bool) (re : RE) :
    Option Char → List Char → Option (List Char × Caps)
  | p, l =>
    match tryAt anchor re p l with
    | some r => some r
    | none =>
      match l with
      | [] => none
      | c :: rest => searchAux anchor re (some c) rest

/-- A compiled pattern: the regex body plus whether it is `\b`-anchored
at its start (the only place `\b` occurs in the source patterns). -/
structure Pat where
  anchored : Bool
  body : RE

def pySearch (pat : Pat) (l : List Char) : Option (List Char × Caps) :=
  searchAux pat.anchored pat.body none l

/-! ### The pattern tables of `parser.py` -/

def isCurrency (c : Char) : Bool := c = '$' || c = '₹' || c = '£'

def isDigitComma (c : Char) : Bool := c.isDigit || c = ','

def isColonDash (c : Char) : Bool := c = ':' || c = '-'

def isInvChar (c : Char) : Bool := isWordChar c || c = '-' || c = '/'

def notNewline (c : Char) : Bool := c != '\n'

/-- `(?:\.[0-9]{2})?` — the optional two-digit decimal suffix. -/
def optDecimal : RE := .opt (reSeq [.lit ['.'], .rep 2 2 Char.isDigit])

/-- `[\$₹£]?\s*[0-9,]+(?:\.[0-9]{2})?` — the amount grammar with an
optional currency symbol (the capture of the two labeled patterns). -/
def amountOptCur : RE :=
  reSeq [.opt (.cls isCurrency), .star pyWS, .plus isDigitComma, optDecimal]

/-- `[\$₹£]\s*[0-9,]+(?:\.[0-9]{2})?` — bare amount, symbol required. -/
def amountReqCur : RE :=
  reSeq [.cls isCurrency, .star pyWS, .plus isDigitComma, optDecimal]

/-- `DATE_PATTERNS` of `parser.py`. -/
def DATE_PATTERNS : List Pat :=
  [ ⟨false, .group (reSeq [.rep 4 4 Char.isDigit, .lit ['-'],
      .rep 2 2 Char.isDigit, .lit ['-'], .rep 2 2 Char.isDigit])⟩,
    ⟨false, .group (reSeq [.rep 2 2 Char.isDigit, .lit ['/'],
      .rep 2 2 Char.isDigit, .lit ['/'], .rep 4 4 Char.isDigit])⟩,
    ⟨false, .group (reSeq [.rep 1 2 Char.isDigit, .lit [' '],
      .rep 3 9 isWordChar, .lit [' '], .rep 4 4 Char.isDigit])⟩ ]

/-- `\bTotal\s*[:\-]?\s*([\$₹£]?\s*[0-9,]+(?:\.[0-9]{2})?)` -/
def totalLabeledPat : Pat :=
  ⟨true, reSeq [.lit "Total".toList, .star pyWS, .opt (.cls isColonDash),
    .star pyWS, .group amountOptCur]⟩

/-- `\bAmount\s*[:\-]?\s*([\$₹£]?\s*[0-9,]+(?:\.[0-9]{2})?)` -/
def amountLabeledPat : Pat :=
  ⟨true, reSeq [.lit "Amount".toList, .star pyWS, .opt (.cls isColonDash),
    .star pyWS, .group amountOptCur]⟩

/-- `([\$₹£]\s*[0-9,]+(?:\.[0-9]{2})?)` -/
def bareCurrencyPat : Pat := ⟨false, .group amountReqCur⟩

/-- `AMOUNT_PATTERNS` of `parser.py`: labeled `Total`, labeled `Amount`,
then a bare currency-prefixed amount. -/
def AMOUNT_PATTERNS : List Pat :=
  [totalLabeledPat, amountLabeledPat, bareCurrencyPat]

/-- `INVOICE_PATTERNS` of `parser.py`. -/
def INVOICE_PATTERNS : List Pat :=
  [ ⟨false, reSeq [.lit "Invoice".toList, .star pyWS, .lit "No".toList,
      .opt (.lit ['.']), .opt (.lit [':']), .star pyWS, .group (.plus isInvChar)]⟩,
    ⟨false, reSeq [.lit "Inv".toList, .opt (.lit ['.']), .star pyWS,
      .lit ['#'], .star pyWS, .group (.plus isInvChar)]⟩,
    ⟨false, reSeq [.lit "Invoice".toList, .star pyWS, .lit ['#'],
      .star pyWS, .group (.plus isInvChar)]⟩ ]

/-- `VENDOR_PATTERNS` of `parser.py`. -/
def VENDOR_PATTERNS : List Pat :=
  [ ⟨false, reSeq [.lit "From:".toList, .star pyWS, .group (.plus notNewline)]⟩,
    ⟨false, reSeq [.lit "Vendor:".toList, .star pyWS, .group (.plus notNewline)]⟩,
    ⟨false, reSeq [.lit "Bill To:".toList, .star pyWS, .group (.plus notNewline)]⟩ ]

/-! ### `_first_regex_match`, `normalize_amount`, `parse_text` -/

/-- The value extracted from a match: the first non-empty group,
stripped; if the group is absent or empty, the whole match, stripped
(`for g in m.groups(): if g: return g.strip()` / `m.group(0).strip()`). -/
def extractValue (g0 : List Char) (g1 : Caps) : List Char :=
  match g1 with
  | some g => if g = [] then pyStrip g0 else pyStrip g
  | none => pyStrip g0

/-- `_first_regex_match`: try the patterns in order; the first one that
matches anywhere in the text supplies the value. -/
def first_regex_match : List Pat → List Char → Option String
  | [], _ => none
  | pat :: pats, text =>
    match pySearch pat text with
    | some (g0, g1) => some (String.mk (extractValue g0 g1))
    | none => first_regex_match pats text

/-- Characters kept by `re.sub(r'[^0-9.,₹$£]', '', s)`. -/
def isAmountKept (c : Char) : Bool :=
  c.isDigit || c = '.' || c = ',' || c = '₹' || c = '$' || c = '£'

/-- `normalize_amount`: `None`/empty in, `None` out; otherwise replace
no-break spaces by spaces, strip, delete every character outside
`[0-9.,₹$£]`, delete commas; `None` if nothing remains. -/
def normalize_amount : Option String → Option String
  | none => none
  | some s =>
    if s = "" then none
    else
      let l := s.toList.map (fun c => if c = Char.ofNat 0xa0 then ' ' else c)
      let l := pyStrip l
      let l := l.filter isAmountKept
      let l := l.filter (fun c => c ≠ ',')
      if l = [] then none else some (String.mk l)

/-- `re.sub(r'\r\n?', '\n', text)`. -/
def normCRLF : List Char → List Char
  | [] => []
  | '\r' :: '\n' :: rest => '\n' :: normCRLF rest
  | '\r' :: rest => '\n' :: normCRLF rest
  | c :: rest => c :: normCRLF rest

/-- `re.sub(r'\t', ' ', text)`. -/
def tabToSpace (l : List Char) : List Char :=
  l.map (fun c => if c = '\t' then ' ' else c)

/-- `re.sub(r' +', ' ', text)`: collapse runs of spaces. -/
def collapseSpaces : List Char → List Char
  | [] => []
  | [c] => [c]
  | c1 :: c2 :: rest =>
    if c1 = ' ' && c2 = ' ' then collapseSpaces (c2 :: rest)
    else c1 :: collapseSpaces (c2 :: rest)

/-- The extractor's result: four optional fields. -/
structure Parsed where
  vendor : Option String
  invoice_no : Option String
  date : Option String
  total : Option String
deriving Repr, DecidableEq

/-- `parse_text`: normalize line endings, tabs and space runs, then
evaluate the four pattern lists and normalize the total. -/
def parse_text (text : String) : Parsed :=
  if text = "" then ⟨none, none, none, none⟩
  else
    let norm := collapseSpaces (tabToSpace (normCRLF text.toList))
    let vendor := first_regex_match VENDOR_PATTERNS norm
    let invoice_no := first_regex_match INVOICE_PATTERNS norm
    let date := first_regex_match DATE_PATTERNS norm
    let total_raw := first_regex_match AMOUNT_PATTERNS norm
    let total := normalize_amount total_raw
    ⟨vendor, invoice_no, date, total⟩

/-! ### File decoding (`raw.decode('utf-8')` with `errors='replace'` fallback) -/

/-- A UTF-8 continuation byte. -/
def isCont (b : Nat) : Bool := 0x80 ≤ b && b ≤ 0xBF

/-- Strict UTF-8 decoding of a byte list (`raw.decode('utf-8')`):
`none` on any malformed, overlong, surrogate or out-of-range sequence. -/
def decodeUtf8? : List Nat → Option (List Char)
  | [] => some []
  | b :: rest =>
    if b ≤ 0x7F then (decodeUtf8? rest).map (Char.ofNat b :: ·)
    else if 0xC2 ≤ b && b ≤ 0xDF then
      match rest with
      | b2 :: rest2 =>
        if isCont b2 then
          (decodeUtf8? rest2).map (Char.ofNat ((b - 0xC0) * 0x40 + (b2 - 0x80)) :: ·)
        else none
      | [] => none
    else if 0xE0 ≤ b && b ≤ 0xEF then
      match rest with
      | b2 :: b3 :: rest3 =>
        let okSecond :=
          if b = 0xE0 then 0xA0 ≤ b2 && b2 ≤ 0xBF
          else if b = 0xED then 0x80 ≤ b2 && b2 ≤ 0x9F
          else isCont b2
        if okSecond && isCont b3 then
          (decodeUtf8? rest3).map
            (Char.ofNat ((b - 0xE0) * 0x1000 + (b2 - 0x80) * 0x40 + (b3 - 0x80)) :: ·)
        else none
      | _ => none
    else if 0xF0 ≤ b && b ≤ 0xF4 then
      match rest with
      | b2 :: b3 :: b4 :: rest4 =>
        let okSecond :=
          if b = 0xF0 then 0x90 ≤ b2 && b2 ≤ 0xBF
          else if b = 0xF4 then 0x80 ≤ b2 && b2 ≤ 0x8F
          else isCont b2
        if okSecond && isCont b3 && isCont b4 then
          (decodeUtf8? rest4).map
            (Char.ofNat ((b - 0xF0) * 0x40000 + (b2 - 0x80) * 0x1000 +
              (b3 - 0x80) * 0x40 + (b4 - 0x80)) :: ·)
        else none
      | _ => none
    else none

/-- One step of lossy decoding: given the first byte `b` and the bytes
after it, return the decoded character (U+FFFD when `b` does not start
a valid sequence) and the bytes still to decode. -/
def replDecode1 (b : Nat) (rest : List Nat) : Char × List Nat :=
  if b ≤ 0x7F then (Char.ofNat b, rest)
  else if 0xC2 ≤ b && b ≤ 0xDF then
    match rest with
    | b2 :: rest2 =>
      if isCont b2 then (Char.ofNat ((b - 0xC0) * 0x40 + (b2 - 0x80)), rest2)
      else (Char.ofNat 0xFFFD, rest)
    | [] => (Char.ofNat 0xFFFD, [])
  else if 0xE0 ≤ b && b ≤ 0xEF then
    match rest with
    | b2 :: b3 :: rest3 =>
      let okSecond :=
        if b = 0xE0 then 0xA0 ≤ b2 && b2 ≤ 0xBF
        else if b = 0xED then 0x80 ≤ b2 && b2 ≤ 0x9F
        else isCont b2
      if okSecond && isCont b3 then
        (Char.ofNat ((b - 0xE0) * 0x1000 + (b2 - 0x80) * 0x40 + (b3 - 0x80)), rest3)
      else (Char.ofNat 0xFFFD, b2 :: b3 :: rest3)
    | short => (Char.ofNat 0xFFFD, short)
  else if 0xF0 ≤ b && b ≤ 0xF4 then
    match rest with
    | b2 :: b3 :: b4 :: rest4 =>
      let okSecond :=
        if b = 0xF0 then 0x90 ≤ b2 && b2 ≤ 0xBF
        else if b = 0xF4 then 0x80 ≤ b2 && b2 ≤ 0x8F
        else isCont b2
      if okSecond && isCont b3 && isCont b4 then
        (Char.ofNat ((b - 0xF0) * 0x40000 + (b2 - 0x80) * 0x1000 +
          (b3 - 0x80) * 0x40 + (b4 - 0x80)), rest4)
      else (Char.ofNat 0xFFFD, b2 :: b3 :: b4 :: rest4)
    | short => (Char.ofNat 0xFFFD, short)
  else (Char.ofNat 0xFFFD, rest)

/-- Lossy decoding driver; each step consumes at least the first byte,
so a fuel of the input length suffices. -/
def decodeReplaceFuel : Nat → List Nat → List Char
  | 0, _ => []
  | _ + 1, [] => []
  | fuel + 1, b :: rest =>
    let step := replDecode1 b rest
    step.1 :: decodeReplaceFuel fuel step.2

/-- Lossy decoding (`errors='replace'`): valid sequences decode as in
strict mode; an invalid byte becomes U+FFFD and decoding resumes. -/
def decodeReplace (l : List Nat) : List Char :=
  decodeReplaceFuel l.length l

/-- The decode step of `process_document`: try strict UTF-8, fall back
to the replacement decoding on failure. Total: never an error value. -/
def decodeBytes (raw : List Nat) : String :=
  match decodeUtf8? raw with
  | some cs => String.mk cs
  | none => String.mk (decodeReplace raw)

/-! ### The processing state machine (`process_document` of `tasks.py`) -/

/-- A row of the `documents` table (`models.py`), restricted to the
fields `process_document` reads or writes. -/
structure Document where
  id : Nat
  filename : Option String := none
  raw_text : String := ""
  parsed_vendor : Option String := none
  parsed_invoice_no : Option String := none
  parsed_date : Option String := none
  parsed_total : Option String := none
  task_id : Option String := none
  status : String := "PENDING"
deriving Repr, DecidableEq

/-- The record store, as the list of rows; `none` from `lookupDoc`
models `db.query(Document).filter(...).first()` returning `None`. -/
def lookupDoc (db : List Document) (i : Nat) : Option Document :=
  db.find? (fun d => d.id = i)

/-- `db.commit()` after mutating the fetched ORM object: the row with
the object's id takes the object's in-memory state. -/
def commitDoc (db : List Document) (d : Document) : List Document :=
  db.map (fun x => if x.id = d.id then d else x)

/-- The filesystem: a path maps to the file's bytes, `none` when
`os.path.exists` is false. -/
def FS := String → Option (List Nat)

/-- What `process_document` hands back to the dispatcher: the three
return values, or a re-raised exception (from the file read or from the
terminal commit). -/
inductive Outcome where
  | errDocumentNotFound
  | errFileNotFound
  | ok (parsed : Parsed)
  | raisedRead
  | raisedCommit
deriving Repr, DecidableEq

/-- `process_document(document_id, file_path)` over an explicit store
and filesystem.  `readFails` injects an I/O error at the file read;
`commitFails` injects a persistence error at the terminal
(status-SUCCESS) commit, after which the `except` block sets the status
of the *same in-memory object* — which already carries the parsed
fields and raw text — to FAILED, commits, and re-raises. -/
def process_document (readFails commitFails : Bool)
    (db : List Document) (fs : FS) (document_id : Nat) (file_path : String) :
    Outcome × List Document :=
  match lookupDoc db document_id with
  | none => (.errDocumentNotFound, db)
  | some doc =>
    match fs file_path with
    | none => (.errFileNotFound, commitDoc db { doc with status := "FAILED" })
    | some raw =>
      if readFails then
        (.raisedRead, commitDoc db { doc with status := "FAILED" })
      else
        let text := decodeBytes raw
        let parsed := parse_text text
        let doc' : Document :=
          { doc with
            parsed_vendor := parsed.vendor
            parsed_invoice_no := parsed.invoice_no
            parsed_date := parsed.date
            parsed_total := parsed.total
            raw_text := text
            status := "SUCCESS" }
        if commitFails then
          (.raisedCommit, commitDoc db { doc' with status := "FAILED" })
        else
          (.ok parsed, commitDoc db doc')

/-! ### Concrete material shared by the concrete-input theorems -/

/-- The spec's worked example input. -/
def sampleText : String :=
  "Vendor: Acme Ltd\nInvoice No.: INV-900\nDate: 2024-04-05\nTotal: $2,000.00\n"

/-- The example file, as bytes (it is plain ASCII). -/
def sampleBytes : List Nat := sampleText.toList.map Char.toNat

/-- A filesystem holding exactly the example file. -/
def sampleFS : FS := fun p => if p = "/data/inv.txt" then some sampleBytes else none

/-! ### Helper lemmas about stripping and whitespace -/

/-- The head of `dropWhile p` never satisfies `p`. -/
theorem head?_dropWhile_false {α : Type} (p : α → Bool) (l : List α) (c : α)
    (h : (l.dropWhile p).head? = some c) : p c = false := by
  induction l with
  | nil => simp [List.dropWhile] at h
  | cons a t ih =>
    rw [List.dropWhile_cons] at h
    by_cases hp : p a
    · simp [hp] at h; exact ih h
    · simp [hp] at h
      simp [← h, Bool.eq_false_iff, hp]

/-- `dropWhile` removes a prefix, so when the result is non-empty its
last element is the last element of the input. -/
theorem getLast?_dropWhile {α : Type} (p : α → Bool) (l : List α)
    (h : l.dropWhile p ≠ []) : (l.dropWhile p).getLast? = l.getLast? := by
  induction l with
  | nil => simp [List.dropWhile] at h
  | cons a t ih =>
    rw [List.dropWhile_cons] at h ⊢
    by_cases hp : p a
    · simp only [hp, if_true] at h ⊢
      have ht : t ≠ [] := by
        intro he; rw [he] at h; simp [List.dropWhile] at h
      rw [ih h]
      cases t with
      | nil => exact absurd rfl ht
      | cons b u => rfl
    · simp [hp]

/-- "No leading or trailing whitespace" for a character list. -/
def noWSEnds (l : List Char) : Prop :=
  (∀ c, l.head? = some c → pyWS c = false) ∧
  (∀ c, l.getLast? = some c → pyWS c = false)

/-- A stripped list has no whitespace at either end. -/
theorem pyStrip_noWSEnds (l : List Char) : noWSEnds (pyStrip l) := by
  unfold pyStrip noWSEnds
  constructor
  · intro c hc
    rw [List.head?_reverse] at hc
    by_cases hB : (l.dropWhile pyWS).reverse.dropWhile pyWS = []
    · rw [hB] at hc; simp at hc
    · rw [getLast?_dropWhile _ _ hB, List.getLast?_reverse] at hc
      exact head?_dropWhile_false _ _ _ hc
  · intro c hc
    rw [List.getLast?_reverse] at hc
    exact head?_dropWhile_false _ _ _ hc

/-- A list all of whose characters are non-whitespace has none at the
ends either. -/
theorem noWSEnds_of_forall (l : List Char)
    (h : ∀ c ∈ l, pyWS c = false) : noWSEnds l := by
  constructor
  · intro c hc; exact h c (List.mem_of_mem_head? hc)
  · intro c hc; exact h c (List.mem_of_mem_getLast? hc)

/-- `extractValue` always strips, so its ends carry no whitespace. -/
theorem noWSEnds_extractValue (g0 : List Char) (g1 : Caps) :
    noWSEnds (extractValue g0 g1) := by
  unfold extractValue
  cases g1 with
  | none => exact pyStrip_noWSEnds g0
  | some g =>
    by_cases hg : g = []
    · simp only [hg, if_true]; exact pyStrip_noWSEnds g0
    · simp only [hg, if_false]; exact pyStrip_noWSEnds g

/-- Any value produced by `first_regex_match` is trimmed. -/
theorem first_regex_match_trimmed (pats : List Pat) (text : List Char)
    (s : String) (h : first_regex_match pats text = some s) :
    noWSEnds s.toList := by
  induction pats with
  | nil => simp [first_regex_match] at h
  | cons pat pats ih =>
    rw [first_regex_match] at h
    cases hs : pySearch pat text with
    | none => rw [hs] at h; exact ih h
    | some r =>
      rw [hs] at h
      have : String.mk (extractValue r.1 r.2) = s := by
        cases r; exact Option.some.inj h
      rw [← this]
      exact noWSEnds_extractValue _ _

/-- Whitespace characters are not kept by the amount-character filter. -/
theorem ws_not_amount_kept (c : Char) (h : pyWS c = true) :
    isAmountKept c = false := by
  simp only [pyWS, Bool.or_eq_true, decide_eq_true_eq] at h
  rcases h with ((((((h | h) | h) | h) | h) | h) | h) <;> subst h <;> decide

/-- Shape of a non-`none` `normalize_amount` result: non-empty, every
character kept by the filter and no commas. -/
theorem normalize_amount_chars (s : Option String) (r : String)
    (h : normalize_amount s = some r) :
    r ≠ "" ∧ ∀ c ∈ r.toList, isAmountKept c = true ∧ c ≠ ',' := by
  cases s with
  | none => simp [normalize_amount] at h
  | some str =>
    rw [normalize_amount] at h
    by_cases he : str = ""
    · simp [he] at h
    · simp only [he, if_false] at h
      set l4 := ((pyStrip (str.toList.map
        (fun c => if c = Char.ofNat 0xa0 then ' ' else c))).filter
          isAmountKept).filter (fun c => c ≠ ',') with hl4
      by_cases h4 : l4 = []
      · rw [if_pos h4] at h; exact absurd h (by simp)
      · rw [if_neg h4] at h
        have hr : r = String.mk l4 := (Option.some.inj h).symm
        constructor
        · rw [hr]; intro hcon
          exact h4 (by simpa using congrArg String.toList hcon)
        · intro c hc
          rw [hr] at hc
          have hc4 : c ∈ l4 := hc
          rw [hl4] at hc4
          have h2 := List.mem_filter.mp hc4
          have h1 := List.mem_filter.mp h2.1
          refine ⟨h1.2, ?_⟩
          simpa using h2.2

/-! ### Claim theorems -/

/-- C2 (counterexample): on the spec's worked example the extractor does
not return total `"2000.00"` — `normalize_amount` keeps the currency
symbol, so the result differs from the claimed quadruple. -/
theorem c2_sample_counterexample :
    parse_text sampleText ≠
      ⟨some "Acme Ltd", some "INV-900", some "2024-04-05", some "2000.00"⟩ := by
  decide

/-- C2 (amended): the example input yields vendor `"Acme Ltd"`, invoice
number `"INV-900"`, date `"2024-04-05"` and total `"$2000.00"` (the
currency symbol is retained by amount normalization). -/
theorem c2_sample_amended :
    parse_text sampleText =
      ⟨some "Acme Ltd", some "INV-900", some "2024-04-05", some "$2000.00"⟩ := by
  decide

/-- C3 (counterexample): `normalize_amount` does not map `"$2,000.00"`
to `"2000.00"`: the `[^0-9.,₹$£]` filter keeps the dollar sign. -/
theorem c3_normalization_counterexample :
    normalize_amount (some "$2,000.00") ≠ some "2000.00" := by
  decide

/-- C3 (amended): amount normalization strips no-break spaces, trims,
removes characters outside `[0-9.,₹$£]` (currency symbols are kept) and
removes commas: `"$2,000.00" ↦ "$2000.00"` and `"₹ 1,234" ↦ "₹1234"`. -/
theorem c3_normalization_amended :
    normalize_amount (some "$2,000.00") = some "$2000.00" ∧
    normalize_amount (some "₹ 1,234") = some "₹1234" := by
  constructor <;> decide

/-- C9: the extractor is deterministic and pure — identical input texts
yield identical outputs (it is a function of the text alone). -/
theorem c9_extract_deterministic (t1 t2 : String) (h : t1 = t2) :
    parse_text t1 = parse_text t2 := by rw [h]

/-- Witness for C9 at the worked example input. -/
theorem c9_extract_deterministic_witness :
    parse_text sampleText = parse_text sampleText :=
  c9_extract_deterministic sampleText sampleText rfl

/-- C10: `normalize_amount` returns `none` or a non-empty string whose
characters are all digits, `'.'`, `'$'`, `'₹'` or `'£'` — never
whitespace or commas. -/
theorem c10_normalize_amount_charset (s : Option String) :
    normalize_amount s = none ∨
    ∃ r, normalize_amount s = some r ∧ r ≠ "" ∧
      ∀ c ∈ r.toList,
        (c.isDigit || c = '.' || c = '$' || c = '₹' || c = '£') = true := by
  cases h : normalize_amount s with
  | none => exact Or.inl rfl
  | some r =>
    refine Or.inr ⟨r, rfl, ?_⟩
    obtain ⟨hne, hall⟩ := normalize_amount_chars s r h
    refine ⟨hne, fun c hc => ?_⟩
    obtain ⟨hkept, hcomma⟩ := hall c hc
    simp only [isAmountKept, Bool.or_eq_true, decide_eq_true_eq] at hkept
    simp only [Bool.or_eq_true, decide_eq_true_eq]
    tauto

/-- A field of the extractor result is either `none` or a string with
no leading or trailing whitespace. -/
def trimmedField (o : Option String) : Prop :=
  ∀ s, o = some s → noWSEnds s.toList

/-- C4 (counterexample): on the input `"Vendor: "` the extractor
returns vendor `some ""` — a present but *empty* value, because the
group-truthiness test of `_first_regex_match` runs before stripping. -/
theorem c4_empty_vendor_counterexample :
    (parse_text "Vendor: ").vendor = some "" := by
  decide

/-- C4 (amended): for every input text the extractor returns exactly the
four fields, each `none` or a string with no leading or trailing
whitespace (but possibly empty). -/
theorem c4_fields_trimmed_amended (text : String) :
    trimmedField (parse_text text).vendor ∧
    trimmedField (parse_text text).invoice_no ∧
    trimmedField (parse_text text).date ∧
    trimmedField (parse_text text).total := by
  unfold parse_text
  by_cases he : text = ""
  · rw [if_pos he]
    exact ⟨(fun s h => nomatch h), (fun s h => nomatch h),
      (fun s h => nomatch h), (fun s h => nomatch h)⟩
  · rw [if_neg he]
    dsimp only
    refine ⟨?_, ?_, ?_, ?_⟩
    · exact fun s h => first_regex_match_trimmed _ _ _ h
    · exact fun s h => first_regex_match_trimmed _ _ _ h
    · exact fun s h => first_regex_match_trimmed _ _ _ h
    · intro s h
      obtain ⟨-, hall⟩ := normalize_amount_chars _ _ h
      refine noWSEnds_of_forall _ (fun c hc => ?_)
      by_cases hw : pyWS c
      · exact absurd (hall c hc).1 (by simp [ws_not_amount_kept c hw])
      · simpa using hw

/-- Witness for C4 (amended) at the worked example: the extracted
vendor `"Acme Ltd"` of the sample text has no whitespace at its ends. -/
theorem c4_fields_trimmed_amended_witness :
    noWSEnds "Acme Ltd".toList :=
  (c4_fields_trimmed_amended sampleText).1 "Acme Ltd" (by decide)

/-- C5: when the `\bTotal`-labeled pattern matches somewhere in the text
(and in particular when a bare currency amount also matches), the value
`_first_regex_match` returns for the amount field is the one from the
`Total:` label; the later patterns are not consulted. -/
theorem c5_total_priority (text g0 : List Char) (g1 : Caps)
    (r : List Char × Caps)
    (h1 : pySearch totalLabeledPat text = some (g0, g1))
    (_h3 : pySearch bareCurrencyPat text = some r) :
    first_regex_match AMOUNT_PATTERNS text =
      some (String.mk (extractValue g0 g1)) := by
  rw [AMOUNT_PATTERNS, first_regex_match, h1]

/-- Witness for C5 on `"Total: 5 and $7"`, where both the labeled and
the bare pattern match: the labeled amount `"5"` wins. -/
theorem c5_total_priority_witness :
    first_regex_match AMOUNT_PATTERNS "Total: 5 and $7".toList = some "5" := by
  have h := c5_total_priority "Total: 5 and $7".toList
    "Total: 5".toList (some "5".toList) (['$', '7'], some ['$', '7'])
    (by decide) (by decide)
  rw [h]; decide

/-- C6: when no record has the given id, `process_document` reports the
not-found outcome and leaves every record of the store untouched. -/
theorem c6_not_found_no_writes (readFails commitFails : Bool)
    (db : List Document) (fs : FS) (document_id : Nat) (file_path : String)
    (h : lookupDoc db document_id = none) :
    process_document readFails commitFails db fs document_id file_path =
      (.errDocumentNotFound, db) := by
  rw [process_document, h]

/-- Witness for C6: an id absent from a one-record store. -/
theorem c6_not_found_no_writes_witness :
    process_document false false [{ id := 1 }] sampleFS 2 "/data/inv.txt" =
      (.errDocumentNotFound, [{ id := 1 }]) :=
  c6_not_found_no_writes false false [{ id := 1 }] sampleFS 2 "/data/inv.txt"
    (by decide)

/-- C7: when the record exists but the file does not, `process_document`
returns the file-not-found outcome and the only mutation is the status
becoming FAILED: raw text and the four parsed fields keep their (empty,
null) values. -/
theorem c7_file_missing_failed (readFails commitFails : Bool)
    (db : List Document) (fs : FS) (document_id : Nat) (file_path : String)
    (doc : Document)
    (h1 : lookupDoc db document_id = some doc)
    (h2 : fs file_path = none) :
    process_document readFails commitFails db fs document_id file_path =
      (.errFileNotFound, commitDoc db { doc with status := "FAILED" }) ∧
    ({ doc with status := "FAILED" }).raw_text = doc.raw_text ∧
    ({ doc with status := "FAILED" }).parsed_vendor = doc.parsed_vendor ∧
    ({ doc with status := "FAILED" }).parsed_invoice_no = doc.parsed_invoice_no ∧
    ({ doc with status := "FAILED" }).parsed_date = doc.parsed_date ∧
    ({ doc with status := "FAILED" }).parsed_total = doc.parsed_total := by
  refine ⟨?_, rfl, rfl, rfl, rfl, rfl⟩
  rw [process_document, h1, h2]

/-- Witness for C7: a fresh PENDING record and a missing path — the
store afterwards holds the same record with status FAILED, empty raw
text and null parsed fields. -/
theorem c7_file_missing_failed_witness :
    process_document false false [{ id := 1 }] sampleFS 1 "/missing" =
      (.errFileNotFound,
        commitDoc [{ id := 1 }] { (({ id := 1 } : Document)) with status := "FAILED" }) :=
  (c7_file_missing_failed false false [{ id := 1 }] sampleFS 1 "/missing"
    { id := 1 } (by decide) (by decide)).1

/-- C8: decoding the file bytes never fails and is deterministic —
identical byte sequences decode to identical strings; strict UTF-8 is
used when it succeeds, the replacement decoding otherwise. -/
theorem c8_decode_total_deterministic (b1 b2 : List Nat) (h : b1 = b2) :
    decodeBytes b1 = decodeBytes b2 ∧
    (∀ cs, decodeUtf8? b1 = some cs → decodeBytes b1 = String.mk cs) ∧
    (decodeUtf8? b1 = none → decodeBytes b1 = String.mk (decodeReplace b1)) := by
  subst h
  refine ⟨rfl, ?_, ?_⟩
  · intro cs hcs; rw [decodeBytes, hcs]
  · intro hn; rw [decodeBytes, hn]

/-- Witness for C8 on corrupt bytes `[0xff, 0x41]`: strict decoding
fails, so the replacement decoding is used and no error escapes. -/
theorem c8_decode_total_deterministic_witness :
    decodeBytes [0xff, 0x41] = decodeBytes [0xff, 0x41] ∧
    decodeBytes [0xff, 0x41] = String.mk (decodeReplace [0xff, 0x41]) :=
  ⟨(c8_decode_total_deterministic [0xff, 0x41] [0xff, 0x41] rfl).1,
   (c8_decode_total_deterministic [0xff, 0x41] [0xff, 0x41] rfl).2.2 (by decide)⟩

/-- C1 (counterexample): when the terminal commit fails, the `except`
block commits the *same ORM object* — which already carries the decoded
text and the parsed fields — with status FAILED, so the resulting
FAILED record has non-empty `rawText` and non-null parsed fields,
against the claim that they are left unset. -/
theorem c1_persistence_failure_counterexample :
    process_document false true [{ id := 1 }] sampleFS 1 "/data/inv.txt" =
      (.raisedCommit,
        [{ id := 1,
           raw_text := sampleText,
           parsed_vendor := some "Acme Ltd",
           parsed_invoice_no := some "INV-900",
           parsed_date := some "2024-04-05",
           parsed_total := some "$2000.00",
           status := "FAILED" }]) ∧
    sampleText ≠ "" := by
  constructor <;> decide

/-- C1 (amended): after the file-existence check, a failure during the
file read transitions the record to FAILED with raw text and parsed
fields still unset, and re-raises; a persistence failure at the
terminal update transitions the record to FAILED and re-raises, but the
record keeps the raw text and parsed fields assigned before the failed
commit. -/
theorem c1_failure_paths_amended (db : List Document) (fs : FS)
    (document_id : Nat) (file_path : String) (doc : Document)
    (raw : List Nat)
    (h1 : lookupDoc db document_id = some doc)
    (h2 : fs file_path = some raw) :
    process_document true false db fs document_id file_path =
      (.raisedRead, commitDoc db { doc with status := "FAILED" }) ∧
    process_document false true db fs document_id file_path =
      (.raisedCommit, commitDoc db
        { doc with
          parsed_vendor := (parse_text (decodeBytes raw)).vendor,
          parsed_invoice_no := (parse_text (decodeBytes raw)).invoice_no,
          parsed_date := (parse_text (decodeBytes raw)).date,
          parsed_total := (parse_text (decodeBytes raw)).total,
          raw_text := decodeBytes raw,
          status := "FAILED" }) := by
  constructor
  · rw [process_document, h1, h2]; rfl
  · rw [process_document, h1, h2]; rfl

/-- Witness for C1 (amended) on the example store and file. -/
theorem c1_failure_paths_amended_witness :
    process_document true false [{ id := 1 }] sampleFS 1 "/data/inv.txt" =
      (.raisedRead,
        commitDoc [{ id := 1 }] { ({ id := 1 } : Document) with status := "FAILED" }) :=
  (c1_failure_paths_amended [{ id := 1 }] sampleFS 1 "/data/inv.txt"
    { id := 1 } sampleBytes (by decide) (by decide)).1

end FinDocs
